import Mathlib

/-!
Shallow embedding of the package-index and wheel-builder core of the
rattler_installs_packages crate (src/crates/rattler_installs_packages).

The definitions below are translated from
  src/index/package_database.rs  (PackageDb and its helper functions)
  src/wheel_builder/mod.rs       (WheelBuilder)
  src/resolve/solve.rs           (SDistResolution, ResolveOptions).

External collaborators (the HTTP transport, the artifact readers, the
build-backend subprocess, the digest routine of the rattler_digest crate)
live outside these source files; they are modelled as explicit inputs
(environment records of functions) or as concrete stand-in functions,
each marked in its doc comment.  Rust Result values are modelled by the
Res type below, and functions that can hit a Rust assertion or expect
are modelled with the PRes type, whose extra constructor records the
aborted (panicked) run.
-/

namespace Rip

/-- Result type mirroring Rust Result: either an error or a value. -/
inductive Res (ε α : Type) where
  | err (e : ε)
  | ok (a : α)
deriving DecidableEq

/-- Result of running a function that may also abort through a Rust
assert or expect: aborted run, typed error, or value. -/
inductive PRes (ε α : Type) where
  | panicked
  | err (e : ε)
  | ok (a : α)
deriving DecidableEq

/-- Modelled from the spec: stand-in for the SHA-256 digest computed by
rattler_digest (outside src/): an injective-enough fold over the bytes.
The claims proved below depend only on it being a fixed function of the
bytes, never on its internal structure. -/
def sha256model (bytes : List Nat) : Nat :=
  bytes.foldl (fun acc b => acc * 256 + b % 256 + 1) 7

/-- ArtifactHashes from types: the optional sha256 digest, modelled as a
natural number. -/
structure ArtifactHashes where
  sha256 : Option Nat
deriving DecidableEq

/-- DistInfoMetadata from types: whether a PEP 658 sidecar is declared,
and the declared hashes of the sidecar. -/
structure DistInfoMetadata where
  available : Bool
  hashes : ArtifactHashes
deriving DecidableEq

/-- Yanked flag of an artifact. -/
structure Yanked where
  yanked : Bool
  reason : Option String
deriving DecidableEq

/-- Model of a parsed URL: the pieces the embedded functions consult.
The scheme and the full serialisation are opaque strings; the path is a
character list so that the PEP 658 path rewriting can be stated on it;
the fragment models url.fragment().and_then(parse_hash). -/
structure UrlM where
  scheme : String
  path : List Char
  fragment : Option Nat
  asStr : String
deriving DecidableEq

/-- ArtifactName from types: the tagged union of wheel, sdist and source
tree names.  Each carries its version and an opaque remainder of the
filename, both as naturals. -/
inductive ArtifactName where
  | wheel (version : Nat) (rest : Nat)
  | sdist (version : Nat) (rest : Nat)
  | stree (version : Nat) (rest : Nat)
deriving DecidableEq

/-- The version component of a filename (filename.version() in the
source). -/
def ArtifactName.version : ArtifactName → Nat
  | .wheel v _ => v
  | .sdist v _ => v
  | .stree v _ => v

/-- True when the artifact name is a wheel (ai.is::<Wheel>() in the
source). -/
def ArtifactName.isWheel : ArtifactName → Bool
  | .wheel _ _ => true
  | _ => false

/-- True when the artifact name is a source distribution
(ai.is::<SDist>() in the source). -/
def ArtifactName.isSDist : ArtifactName → Bool
  | .sdist _ _ => true
  | _ => false

/-- Modelled from the spec: the filename tuple used for ordering
artifacts (the derived Ord of ArtifactName lives outside src/).  The
tag comes first, then version, then the opaque remainder. -/
def ArtifactName.key : ArtifactName → Nat × Nat × Nat
  | .wheel v r => (0, v, r)
  | .sdist v r => (1, v, r)
  | .stree v r => (2, v, r)

/-- WheelCoreMetadata from types: the parsed core metadata fields the
embedded functions consult (name, version, requires_python), all
opaque. -/
structure WheelCoreMetadata where
  name : Nat
  version : Nat
  requiresPython : Option Nat
deriving DecidableEq

/-- ArtifactInfo from types: the immutable artifact descriptor. -/
structure ArtifactInfo where
  filename : ArtifactName
  url : UrlM
  hashes : Option ArtifactHashes
  requiresPython : Option Nat
  distInfoMetadata : DistInfoMetadata
  yanked : Yanked
deriving DecidableEq

/-- PypiVersion from resolve: an index-discovered version together with
its prerelease flag, or a direct URL pin (keyed by the serialised
URL). -/
inductive PypiVersion where
  | version (version : Nat) (packageAllowsPrerelease : Bool)
  | url (u : String)
deriving DecidableEq

/-- VersionArtifacts: the IndexMap from PypiVersion to artifact lists,
modelled as an association list in insertion order. -/
abbrev VersionArtifacts := List (PypiVersion × List ArtifactInfo)

/-- The metadata FileStore: blobs keyed by ArtifactHashes. -/
abbrev MetadataCache := List (ArtifactHashes × List Nat)

/-- FileStore.get_or_set: write the blob only when the key is absent;
an existing entry wins. -/
def mcGetOrSet (mc : MetadataCache) (h : ArtifactHashes) (blob : List Nat) : MetadataCache :=
  match mc.lookup h with
  | some _ => mc
  | none => (h, blob) :: mc

/-- PackageDb::put_metadata_in_cache: store the blob under the artifact
hashes; artifacts without hashes are not cached. -/
def putMetadataInCache (mc : MetadataCache) (ai : ArtifactInfo) (blob : List Nat) : MetadataCache :=
  match ai.hashes with
  | some h => mcGetOrSet mc h blob
  | none => mc

/-- The per-package memoization map (the elsa FrozenMap of PackageDb),
keyed by the normalized package name (opaque natural). -/
abbrev ArtifactsMap := List (Nat × VersionArtifacts)

/-- FrozenMap::insert of the elsa crate: an existing entry is kept and
returned; otherwise the new value is stored and returned. -/
def frozenInsert (m : ArtifactsMap) (k : Nat) (v : VersionArtifacts) :
    ArtifactsMap × VersionArtifacts :=
  match m.lookup k with
  | some old => (m, old)
  | none => ((k, v) :: m, v)

/-- One step of str::replace with a non-empty pattern, with explicit
fuel (the fuel is only a termination device; replaceAll supplies enough
of it).  At each position the leftmost match of the pattern is replaced
and skipped, as Rust str::replace does. -/
def replaceAllFuel (pat rep : List Char) : Nat → List Char → List Char
  | 0, l => l
  | _ + 1, [] => []
  | n + 1, c :: rest =>
    if pat ≠ [] ∧ pat.isPrefixOf (c :: rest) then
      rep ++ replaceAllFuel pat rep n ((c :: rest).drop pat.length)
    else
      c :: replaceAllFuel pat rep n rest

/-- Rust str::replace(pat, rep) for a non-empty pattern: every
non-overlapping occurrence of pat, scanning from the left, is replaced
by rep. -/
def replaceAll (pat rep l : List Char) : List Char :=
  replaceAllFuel pat rep l.length l

/-- The URL path requested by PackageDb::get_pep658_metadata:
url.set_path(&url.path().replace(".whl", ".whl.metadata")). -/
def pep658RequestPath (ai : ArtifactInfo) : List Char :=
  replaceAll ".whl".toList ".whl.metadata".toList ai.url.path

/-- Collaborators of get_pep658_metadata: the HTTP GET of the sidecar
(CacheMode::NoStore) returning its bytes, and
WheelCoreMetadata::try_from on those bytes (both outside the embedded
sources). -/
structure Pep658Env where
  fetchSidecar : List Char → Res Unit (List Nat)
  parseMeta : List Nat → Option WheelCoreMetadata

/-- PackageDb::get_pep658_metadata: panics when the artifact is not a
wheel (the expect), fetches the rewritten URL, parses the bytes, stores
the blob under the artifact hashes and returns the metadata.  No digest
of the fetched bytes is computed anywhere. -/
def get_pep658_metadata (env : Pep658Env) (ai : ArtifactInfo) (mc : MetadataCache) :
    PRes Unit (MetadataCache × WheelCoreMetadata) :=
  if ai.filename.isWheel then
    match env.fetchSidecar (pep658RequestPath ai) with
    | .err e => .err e
    | .ok bytes =>
      match env.parseMeta bytes with
      | none => .err ()
      | some m => .ok (putMetadataInCache mc ai bytes, m)
  else
    .panicked

/-- The ArtifactInfo value synthesized by every direct-URL ingestion
path: the extracted name, the original URL, the computed hashes, the
requires_python of the parsed metadata, and defaulted dist-info and
yanked fields. -/
def synthesizedArtifactInfo (name : ArtifactName) (url : UrlM) (h : ArtifactHashes)
    (m : WheelCoreMetadata) : ArtifactInfo :=
  { filename := name
    url := url
    hashes := some h
    requiresPython := m.requiresPython
    distInfoMetadata := ⟨false, ⟨none⟩⟩
    yanked := ⟨false, none⟩ }

/-- Collaborators of PackageDb::get_file_artifact: whether
url.to_file_path() succeeds, whether the path is a regular file, and
the three artifact readers it dispatches to (Wheel::from_path plus
wheel.metadata(), get_sdist_from_file_path, get_stree_from_file_path),
each yielding the artifact name, the metadata blob and the parsed
metadata, or failing. -/
structure FileArtEnv where
  toFilePathOk : Bool
  isFile : Bool
  wheelFromPath : Res Unit (ArtifactName × List Nat × WheelCoreMetadata)
  sdistFromPath : Res Unit ((List Nat × WheelCoreMetadata) × ArtifactName)
  streeFromPath : Res Unit ((List Nat × WheelCoreMetadata) × ArtifactName)

/-- PackageDb::get_file_artifact: reads the artifact behind a file URL,
hashes the extracted metadata blob, synthesizes one ArtifactInfo keyed
by PypiVersion::Url, stores the blob in the metadata cache and inserts
the single-entry map into the memoization map. -/
def get_file_artifact (env : FileArtEnv) (p : Nat) (url : UrlM)
    (db : ArtifactsMap) (mc : MetadataCache) :
    PRes Unit (ArtifactsMap × MetadataCache × VersionArtifacts) :=
  if ¬ env.toFilePathOk then .err () else
  let branch : Res Unit (ArtifactName × List Nat × WheelCoreMetadata) :=
    if env.isFile ∧ ".whl".toList.isSuffixOf url.path then
      env.wheelFromPath
    else if env.isFile then
      match env.sdistFromPath with
      | .err e => .err e
      | .ok ((blob, m), name) => .ok (name, blob, m)
    else
      match env.streeFromPath with
      | .err e => .err e
      | .ok ((blob, m), name) => .ok (name, blob, m)
  match branch with
  | .err e => .err e
  | .ok (name, metadataBytes, m) =>
    let artifactHash : ArtifactHashes := ⟨some (sha256model metadataBytes)⟩
    let ai : ArtifactInfo := synthesizedArtifactInfo name url artifactHash m
    let result : VersionArtifacts := [(PypiVersion.url url.asStr, [ai])]
    let mc2 := putMetadataInCache mc ai metadataBytes
    let (db2, value) := frozenInsert db p result
    .ok (db2, mc2, value)

/-- Collaborators of PackageDb::get_direct_http_url_artifact: the HTTP
download of the artifact bytes (CacheMode::Default, materialized
locally), Wheel::from_url_and_bytes plus wheel.metadata(), and
get_sdist_from_http. -/
structure HttpArtEnv where
  fetch : Res Unit (List Nat)
  wheelFromBytes : Res Unit (ArtifactName × List Nat × WheelCoreMetadata)
  sdistFromHttp : Res Unit ((List Nat × WheelCoreMetadata) × ArtifactName)

/-- The part of get_direct_http_url_artifact after the fragment-hash
assertion: branch on the .whl suffix, synthesize the ArtifactInfo with
the digest of the downloaded artifact bytes, cache the metadata blob
under it and insert into the memoization map. -/
def directHttpUrlRest (env : HttpArtEnv) (p : Nat) (url : UrlM)
    (db : ArtifactsMap) (mc : MetadataCache) (bytesForHash : List Nat) :
    PRes Unit (ArtifactsMap × MetadataCache × VersionArtifacts) :=
  let artifactHash : ArtifactHashes := ⟨some (sha256model bytesForHash)⟩
  let branch : Res Unit (ArtifactName × List Nat × WheelCoreMetadata) :=
    if ".whl".toList.isSuffixOf url.path then
      env.wheelFromBytes
    else
      match env.sdistFromHttp with
      | .err e => .err e
      | .ok ((blob, m), name) => .ok (name, blob, m)
  match branch with
  | .err e => .err e
  | .ok (filename, dataBytes, m) =>
    let ai : ArtifactInfo := synthesizedArtifactInfo filename url artifactHash m
    let result : VersionArtifacts := [(PypiVersion.url url.asStr, [ai])]
    let mc2 := putMetadataInCache mc ai dataBytes
    let (db2, value) := frozenInsert db p result
    .ok (db2, mc2, value)

/-- PackageDb::get_direct_http_url_artifact: downloads the artifact,
digests the downloaded bytes, and checks a fragment-declared hash with
assert_eq! — a disagreement aborts the run instead of returning a typed
error.  Afterwards directHttpUrlRest finishes the ingestion. -/
def get_direct_http_url_artifact (env : HttpArtEnv) (p : Nat) (url : UrlM)
    (db : ArtifactsMap) (mc : MetadataCache) :
    PRes Unit (ArtifactsMap × MetadataCache × VersionArtifacts) :=
  match env.fetch with
  | .err e => .err e
  | .ok bytesForHash =>
    let artifactHash : ArtifactHashes := ⟨some (sha256model bytesForHash)⟩
    match url.fragment with
    | some h =>
      if (⟨some h⟩ : ArtifactHashes) = artifactHash then
        directHttpUrlRest env p url db mc bytesForHash
      else
        .panicked
    | none => directHttpUrlRest env p url db mc bytesForHash

/-- Collaborators of PackageDb::get_git_artifact: ParsedUrl::new,
git_clone into a fresh temporary directory, the optional subdirectory
descent (some b records a requested subdirectory whose existence is b),
and get_stree_from_file_path over the checkout. -/
structure GitArtEnv where
  parsedOk : Bool
  cloneOk : Bool
  subdir : Option Bool
  streeFromPath : Res Unit ((List Nat × WheelCoreMetadata) × ArtifactName)

/-- PackageDb::get_git_artifact: clones the repository, extracts source
tree metadata, hashes the URL string (not the tree or the blob),
synthesizes one ArtifactInfo, caches the metadata blob under the URL
digest and inserts into the memoization map. -/
def get_git_artifact (env : GitArtEnv) (p : Nat) (url : UrlM)
    (db : ArtifactsMap) (mc : MetadataCache) :
    PRes Unit (ArtifactsMap × MetadataCache × VersionArtifacts) :=
  if ¬ env.parsedOk then .err () else
  if ¬ env.cloneOk then .err () else
  if env.subdir = some false then .err () else
  match env.streeFromPath with
  | .err e => .err e
  | .ok ((blob, m), filename) =>
    let projectHash : ArtifactHashes :=
      ⟨some (sha256model (url.asStr.toList.map Char.toNat))⟩
    let ai : ArtifactInfo := synthesizedArtifactInfo filename url projectHash m
    let result : VersionArtifacts := [(PypiVersion.url url.asStr, [ai])]
    let mc2 := putMetadataInCache mc ai blob
    let (db2, value) := frozenInsert db p result
    .ok (db2, mc2, value)

/-- Error type of get_artifact_by_direct_url, separating the
insecure-or-unsupported-scheme failure from the errors of the three
ingestion paths. -/
inductive DirectUrlErr where
  | unsupportedScheme
  | other
deriving DecidableEq

/-- The environments of the three ingestion paths bundled for the
dispatcher. -/
structure DirectUrlEnv where
  file : FileArtEnv
  http : HttpArtEnv
  git : GitArtEnv

/-- Relabel the error of an ingestion-path result for the
dispatcher. -/
def PRes.asOther {α : Type} : PRes Unit α → PRes DirectUrlErr α
  | .panicked => .panicked
  | .err _ => .err .other
  | .ok a => .ok a

/-- PackageDb::get_artifact_by_direct_url: a memoized package name is
returned as-is without looking at the URL; otherwise the scheme
dispatches to the file, https or git ingestion path, and any other
scheme fails with the insecure-or-unsupported-scheme error. -/
def get_artifact_by_direct_url (env : DirectUrlEnv) (p : Nat) (url : UrlM)
    (db : ArtifactsMap) (mc : MetadataCache) :
    PRes DirectUrlErr (ArtifactsMap × MetadataCache × VersionArtifacts) :=
  match db.lookup p with
  | some cached => .ok (db, mc, cached)
  | none =>
    if url.scheme = "file" then
      (get_file_artifact env.file p url db mc).asOther
    else if url.scheme = "https" then
      (get_direct_http_url_artifact env.http p url db mc).asOther
    else if url.scheme = "git+https" ∨ url.scheme = "git+file" then
      (get_git_artifact env.git p url db mc).asOther
    else
      .err .unsupportedScheme

/-- Modelled from the spec: the total order on PypiVersion used by the
descending key sort (the Ord instance lives outside src/).  Versions
compare by the version value, ties by the prerelease flag; URL pins
compare by the serialised URL and sort after versions. -/
def pvLe : PypiVersion → PypiVersion → Prop
  | .version v1 p1, .version v2 p2 => v1 < v2 ∨ (v1 = v2 ∧ p1 ≤ p2)
  | .version _ _, .url _ => True
  | .url _, .version _ _ => False
  | .url u1, .url u2 => u1 ≤ u2

instance : DecidableRel pvLe := fun a b => by
  cases a <;> cases b <;> · unfold pvLe; infer_instance

instance : IsTotal PypiVersion pvLe where
  total a b := by
    cases a with
    | version v1 p1 =>
      cases b with
      | version v2 p2 =>
        simp only [pvLe]
        rcases Nat.lt_trichotomy v1 v2 with h | h | h
        · exact Or.inl (Or.inl h)
        · rcases le_total p1 p2 with hp | hp
          · exact Or.inl (Or.inr ⟨h, hp⟩)
          · exact Or.inr (Or.inr ⟨h.symm, hp⟩)
        · exact Or.inr (Or.inl h)
      | url u2 => exact Or.inl trivial
    | url u1 =>
      cases b with
      | version v2 p2 => exact Or.inr trivial
      | url u2 => exact le_total u1 u2

instance : IsTrans PypiVersion pvLe where
  trans a b c hab hbc := by
    cases a with
    | version v1 p1 =>
      cases b with
      | version v2 p2 =>
        cases c with
        | version v3 p3 =>
          simp only [pvLe] at hab hbc ⊢
          rcases hab with h1 | ⟨e1, q1⟩ <;> rcases hbc with h2 | ⟨e2, q2⟩
          · exact Or.inl (by omega)
          · exact Or.inl (by omega)
          · exact Or.inl (by omega)
          · exact Or.inr ⟨by omega, le_trans q1 q2⟩
        | url u3 => exact trivial
      | url u2 =>
        cases c with
        | version v3 p3 => simp only [pvLe] at hbc
        | url u3 => exact trivial
    | url u1 =>
      cases b with
      | version v2 p2 => simp only [pvLe] at hab
      | url u2 =>
        cases c with
        | version v3 p3 => simp only [pvLe] at hbc
        | url u3 => exact le_trans (show u1 ≤ u2 from hab) hbc

/-- Modelled from the spec: the filename order used to sort the
artifact list of each version (the derived Ord of ArtifactName lives
outside src/): lexicographic on the key tuple. -/
def filenameLe (a b : ArtifactName) : Prop :=
  a.key.1 < b.key.1 ∨
    (a.key.1 = b.key.1 ∧
      (a.key.2.1 < b.key.2.1 ∨
        (a.key.2.1 = b.key.2.1 ∧ a.key.2.2 ≤ b.key.2.2)))

instance : DecidableRel filenameLe := fun a b => by
  unfold filenameLe; infer_instance

/-- The comparator of the per-version artifact sort in
available_artifacts: a.filename.cmp(&b.filename). -/
def aiFilenameLe (a b : ArtifactInfo) : Prop :=
  filenameLe a.filename b.filename

instance : DecidableRel aiFilenameLe := fun a b => by
  unfold aiFilenameLe; infer_instance

instance : IsTotal ArtifactInfo aiFilenameLe where
  total a b := by
    unfold aiFilenameLe filenameLe; omega

instance : IsTrans ArtifactInfo aiFilenameLe where
  trans a b c hab hbc := by
    unfold aiFilenameLe filenameLe at *; omega

/-- The comparator of the key sort in available_artifacts:
|v1, _, v2, _| v2.cmp(v1), i.e. descending on the PypiVersion keys. -/
def entryDesc (e1 e2 : PypiVersion × List ArtifactInfo) : Prop :=
  pvLe e2.1 e1.1

instance : DecidableRel entryDesc := fun a b => by
  unfold entryDesc; infer_instance

instance : IsTotal (PypiVersion × List ArtifactInfo) entryDesc where
  total a b := IsTotal.total (r := pvLe) b.1 a.1

instance : IsTrans (PypiVersion × List ArtifactInfo) entryDesc where
  trans a b c hab hbc := IsTrans.trans (r := pvLe) c.1 b.1 a.1 hbc hab

/-- IndexMap::entry(key).or_default().push(a): append the artifact to
the entry of the key, creating the entry at the end on first
occurrence. -/
def entryPush (m : VersionArtifacts) (k : PypiVersion) (a : ArtifactInfo) :
    VersionArtifacts :=
  match m with
  | [] => [(k, [a])]
  | (k2, l) :: rest =>
    if k2 = k then (k2, l ++ [a]) :: rest else (k2, l) :: entryPush rest k a

/-- The merge loop of available_artifacts: every file of every response
is pushed into the entry of its PypiVersion key (version and
prerelease flag from the filename). -/
def collectArtifacts (anyPre : Nat → Bool) (responses : List (List ArtifactInfo)) :
    VersionArtifacts :=
  responses.foldl
    (fun acc files =>
      files.foldl
        (fun acc2 a =>
          entryPush acc2
            (PypiVersion.version a.filename.version (anyPre a.filename.version)) a)
        acc)
    []

/-- available_artifacts after the merge loop: sort each artifact list
by filename, then sort the entries descending by version key. -/
def buildVersionArtifacts (anyPre : Nat → Bool)
    (responses : List (List ArtifactInfo)) : VersionArtifacts :=
  List.insertionSort entryDesc
    ((collectArtifacts anyPre responses).map
      (fun e => (e.1, List.insertionSort aiFilenameLe e.2)))

/-- PackageDb::available_artifacts: return the memoized entry when
present; otherwise fetch (the responses argument stands for the bodies
returned by the index servers, with pre-release detection anyPre of the
opaque Version type supplied as a parameter), merge, sort and insert
through the frozen map. -/
def availableArtifacts (anyPre : Nat → Bool) (db : ArtifactsMap) (p : Nat)
    (responses : List (List ArtifactInfo)) : ArtifactsMap × VersionArtifacts :=
  match db.lookup p with
  | some cached => (db, cached)
  | none => frozenInsert db p (buildVersionArtifacts anyPre responses)

/-- Outcome of get_artifact_with_cache in CacheMode::OnlyIfCached: the
entry is absent (HttpRequestError::NotCached, caught by downcast), some
other error (returned to the caller), or the cached artifact. -/
inductive CachedFetch (α : Type) where
  | notCached
  | otherErr
  | ok (a : α)
deriving DecidableEq

/-- A wheel artifact as the ladder sees it: the outcome of its
metadata() call (blob and parsed metadata, or a read error). -/
structure WheelObj where
  metaResult : Res Unit (List Nat × WheelCoreMetadata)
deriving DecidableEq

/-- A source distribution as rung 2 sees it: the outcome of its
pep643_metadata() call — an error, no compliant PKG-INFO, or the
metadata blob and its parse. -/
structure SDistObj where
  pep643 : Res Unit (Option (List Nat × WheelCoreMetadata))
deriving DecidableEq

/-- Errors surfaced by the metadata ladder to its caller. -/
inductive LadderErr where
  | cachedParse
  | transport
  | pep658Failed
  | pep643Parse
  | buildFailures (errs : List Nat)
deriving DecidableEq

/-- Collaborators of the metadata ladder: the PEP 658 collaborators,
the OnlyIfCached and Default HTTP fetches of wheels and sdists, the
sparse range read (none on any internal failure, which falls through),
the wheel-builder metadata hook with an opaque error payload, and
WheelCoreMetadata::try_from for rung 1. -/
structure LadderEnv where
  pep : Pep658Env
  wheelOnlyCached : ArtifactInfo → CachedFetch WheelObj
  sdistOnlyCached : ArtifactInfo → CachedFetch SDistObj
  lazyRead : ArtifactInfo → Option (List Nat × WheelCoreMetadata)
  wheelDefault : ArtifactInfo → Res Unit WheelObj
  sdistDefault : ArtifactInfo → Res Unit Unit
  buildMeta : ArtifactInfo → Res Nat (List Nat × WheelCoreMetadata)
  parseMeta : List Nat → Option WheelCoreMetadata

/-- The result of one ladder rung: the updated metadata cache and the
selected artifact with its metadata, if any. -/
abbrev LadderOut := MetadataCache × Option (ArtifactInfo × WheelCoreMetadata)

/-- Rung 1 of PackageDb::get_metadata: the first artifact whose blob is
in the metadata cache wins; a blob that fails to parse aborts the
ladder (the try_from is behind the question-mark operator).  Artifacts
without hashes cannot hit (metadata_from_cache returns none for
them). -/
def metadataFromCacheRung (env : LadderEnv) (mc : MetadataCache) :
    List ArtifactInfo → PRes LadderErr (Option (ArtifactInfo × WheelCoreMetadata))
  | [] => .ok none
  | ai :: rest =>
    match ai.hashes with
    | none => metadataFromCacheRung env mc rest
    | some h =>
      match mc.lookup h with
      | none => metadataFromCacheRung env mc rest
      | some bytes =>
        match env.parseMeta bytes with
        | none => .err .cachedParse
        | some m => .ok (some (ai, m))

/-- PackageDb::metadata_for_cached_artifacts (rung 2): walk the
artifacts; a NotCached fetch skips to the next artifact; any other
fetch error is returned; a cached wheel whose metadata cannot be read
is skipped with a warning; a cached sdist with a compliant PKG-INFO
only populates the cache and the walk continues. -/
def metadata_for_cached_artifacts (env : LadderEnv) (mc : MetadataCache) :
    List ArtifactInfo → PRes LadderErr LadderOut
  | [] => .ok (mc, none)
  | ai :: rest =>
    if ai.filename.isWheel then
      match env.wheelOnlyCached ai with
      | .notCached => metadata_for_cached_artifacts env mc rest
      | .otherErr => .err .transport
      | .ok w =>
        match w.metaResult with
        | .ok (blob, m) => .ok (putMetadataInCache mc ai blob, some (ai, m))
        | .err _ => metadata_for_cached_artifacts env mc rest
    else
      match env.sdistOnlyCached ai with
      | .notCached => metadata_for_cached_artifacts env mc rest
      | .otherErr => .err .transport
      | .ok s =>
        match s.pep643 with
        | .err _ => .err .pep643Parse
        | .ok none => metadata_for_cached_artifacts env mc rest
        | .ok (some (bytes, _)) =>
          metadata_for_cached_artifacts env (putMetadataInCache mc ai bytes) rest

/-- PackageDb::get_metadata_wheels (rung 3): for each wheel, PEP 658
sidecar when declared (its failure aborts), else the sparse range read,
else a full download whose transport failure aborts but whose
metadata-read failure skips to the next wheel. -/
def get_metadata_wheels (env : LadderEnv) (mc : MetadataCache) :
    List ArtifactInfo → PRes LadderErr LadderOut
  | [] => .ok (mc, none)
  | ai :: rest =>
    if ai.filename.isWheel then
      if ai.distInfoMetadata.available then
        match get_pep658_metadata env.pep ai mc with
        | .panicked => .panicked
        | .err _ => .err .pep658Failed
        | .ok (mc2, m) => .ok (mc2, some (ai, m))
      else
        match env.lazyRead ai with
        | some (blob, m) => .ok (putMetadataInCache mc ai blob, some (ai, m))
        | none =>
          match env.wheelDefault ai with
          | .err _ => .err .transport
          | .ok w =>
            match w.metaResult with
            | .ok (blob, m) => .ok (putMetadataInCache mc ai blob, some (ai, m))
            | .err _ => get_metadata_wheels env mc rest
    else
      get_metadata_wheels env mc rest

/-- PackageDb::get_metadata_sdists (rung 4): acquire each sdist
(transport failure aborts), run the builder hook, record a build
failure and move on; after the walk, any recorded failures surface as
one batched error. -/
def get_metadata_sdists (env : LadderEnv) (mc : MetadataCache) (errs : List Nat) :
    List ArtifactInfo → PRes LadderErr LadderOut
  | [] => if errs.isEmpty then .ok (mc, none) else .err (.buildFailures errs)
  | ai :: rest =>
    if ai.filename.isSDist then
      match env.sdistDefault ai with
      | .err _ => .err .transport
      | .ok _ =>
        match env.buildMeta ai with
        | .ok (blob, m) => .ok (putMetadataInCache mc ai blob, some (ai, m))
        | .err e => get_metadata_sdists env mc (errs ++ [e]) rest
    else
      get_metadata_sdists env mc errs rest

/-- PackageDb::get_metadata: the strictly ordered ladder over the four
rungs; rung 4 runs only when a wheel builder was supplied. -/
def get_metadata (env : LadderEnv) (mc : MetadataCache)
    (artifacts : List ArtifactInfo) (hasBuilder : Bool) :
    PRes LadderErr LadderOut :=
  match metadataFromCacheRung env mc artifacts with
  | .panicked => .panicked
  | .err e => .err e
  | .ok (some r) => .ok (mc, some r)
  | .ok none =>
    match metadata_for_cached_artifacts env mc artifacts with
    | .panicked => .panicked
    | .err e => .err e
    | .ok (mc2, some r) => .ok (mc2, some r)
    | .ok (mc2, none) =>
      match get_metadata_wheels env mc2 artifacts with
      | .panicked => .panicked
      | .err e => .err e
      | .ok (mc3, some r) => .ok (mc3, some r)
      | .ok (mc3, none) =>
        if hasBuilder then
          get_metadata_sdists env mc3 [] artifacts
        else
          .ok (mc3, none)

/-- SDistResolution from resolve/solve.rs: how sdists are treated
during resolution. -/
inductive SDistResolution where
  | normal
  | preferWheels
  | preferSDists
  | onlyWheels
  | onlySDists
deriving DecidableEq

/-- SDistResolution::allow_sdists. -/
def SDistResolution.allow_sdists : SDistResolution → Bool
  | .onlyWheels => false
  | _ => true

/-- SDistResolution::allow_wheels. -/
def SDistResolution.allow_wheels : SDistResolution → Bool
  | .onlySDists => false
  | _ => true

/-- ResolveOptions from resolve/solve.rs. -/
structure ResolveOptions where
  sdist_resolution : SDistResolution
deriving DecidableEq

/-- The resolve-options adjustment performed by WheelBuilder::new: only
an OnlySDists preference is rewritten to PreferWheels; every other
preference is stored unchanged. -/
def wheelBuilderResolveOptions (ro : ResolveOptions) : ResolveOptions :=
  if ro.sdist_resolution = SDistResolution.onlySDists then
    { ro with sdist_resolution := SDistResolution.preferWheels }
  else
    ro

/-- Exit status of the build-backend helper script: success flag, exit
code when one exists, and the captured stderr (opaque). -/
structure CmdOutput where
  success : Bool
  code : Option Int
  stderr : Nat
deriving DecidableEq

/-- A built wheel as the builder sees it: the outcome of its metadata()
call. -/
structure BuiltWheel where
  metaResult : Res Unit (List Nat × WheelCoreMetadata)
deriving DecidableEq

/-- Errors of the wheel builder; the stderr variant carries the
captured stderr of a failed backend hook. -/
inductive WheelBuildErrM where
  | stderrOf (s : Nat)
  | otherFailure
deriving DecidableEq

/-- Collaborators of WheelBuilder::get_sdist_metadata and
WheelBuilder::build_wheel for one source artifact: the wheel-cache key
of the source (get_wheel_key), the build environment set-up plus
run_command for a command word, the read of the metadata_result file
and its METADATA parse, and the read of the wheel_result file including
the wheel filename parse and the reconstruction of the wheel. -/
structure BuilderEnv where
  wheelKey : Res Unit Nat
  runCommand : String → Res Unit CmdOutput
  readMetadataResult : Res Unit (List Nat × WheelCoreMetadata)
  readWheelResult : Res Unit BuiltWheel

/-- The local wheel cache: built wheels keyed by the source digest. -/
abbrev WheelCacheState := List (Nat × BuiltWheel)

/-- WheelBuilder::build_wheel: serve from the local wheel cache by
source key; otherwise run the Wheel hook, surface the captured stderr
on a failing exit, read and reparse the produced wheel, associate it
with the key in the cache and return it. -/
def build_wheel (env : BuilderEnv) (wc : WheelCacheState) :
    Res WheelBuildErrM (WheelCacheState × BuiltWheel) :=
  match env.wheelKey with
  | .err _ => .err .otherFailure
  | .ok key =>
    match wc.lookup key with
    | some w => .ok (wc, w)
    | none =>
      match env.runCommand "Wheel" with
      | .err _ => .err .otherFailure
      | .ok out =>
        if out.success then
          match env.readWheelResult with
          | .err _ => .err .otherFailure
          | .ok w => .ok ((key, w) :: wc, w)
        else
          .err (.stderrOf out.stderr)

/-- WheelBuilder::get_sdist_metadata: the metadata of a cached wheel
for the source key wins; otherwise the WheelMetadata hook runs — exit
code 50 falls back to a full build_wheel whose metadata is returned,
any other failing exit surfaces the captured stderr, and a successful
exit reads the metadata_result file. -/
def get_sdist_metadata (env : BuilderEnv) (wc : WheelCacheState) :
    Res WheelBuildErrM (WheelCacheState × (List Nat × WheelCoreMetadata)) :=
  match env.wheelKey with
  | .err _ => .err .otherFailure
  | .ok key =>
    match wc.lookup key with
    | some w =>
      match w.metaResult with
      | .ok r => .ok (wc, r)
      | .err _ => .err .otherFailure
    | none =>
      match env.runCommand "WheelMetadata" with
      | .err _ => .err .otherFailure
      | .ok out =>
        if out.success then
          match env.readMetadataResult with
          | .err _ => .err .otherFailure
          | .ok r => .ok (wc, r)
        else if out.code = some 50 then
          match build_wheel env wc with
          | .err e => .err e
          | .ok (wc2, w) =>
            match w.metaResult with
            | .ok r => .ok (wc2, r)
            | .err _ => .err .otherFailure
        else
          .err (.stderrOf out.stderr)

/-! Registered equality deciders for the composite state types, so that
concrete runs of the embedded functions can be checked by decide. -/

instance : DecidableEq VersionArtifacts := inferInstance

instance : DecidableEq MetadataCache := inferInstance

instance : DecidableEq ArtifactsMap := inferInstance

instance : DecidableEq (MetadataCache × VersionArtifacts) := instDecidableEqProd

instance : DecidableEq (ArtifactsMap × MetadataCache × VersionArtifacts) :=
  instDecidableEqProd

/-! Concrete inputs used to evaluate the embedded functions in the
counterexamples and witnesses below. -/

/-- A wheel URL whose path contains .whl twice: once in a directory
component and once as the filename suffix. -/
def urlTwoWhl : UrlM :=
  { scheme := "https"
    path := "/a.whl/b.whl".toList
    fragment := none
    asStr := "https://h/a.whl/b.whl" }

/-- A wheel artifact with a declared PEP 658 sidecar, living at the
two-.whl URL. -/
def aiTwoWhl : ArtifactInfo :=
  { filename := .wheel 1 0
    url := urlTwoWhl
    hashes := none
    requiresPython := none
    distInfoMetadata := ⟨true, ⟨none⟩⟩
    yanked := ⟨false, none⟩ }

/-- A wheel URL with a single .whl occurrence, as the suffix. -/
def urlOneWhl : UrlM :=
  { scheme := "https"
    path := "/pkg/p-1.0-py3-none-any.whl".toList
    fragment := none
    asStr := "https://h/pkg/p-1.0-py3-none-any.whl" }

/-- A wheel artifact with a declared PEP 658 sidecar at the one-.whl
URL, declaring a sidecar sha256 of 999 and an artifact sha256 of 11. -/
def aiSidecar : ArtifactInfo :=
  { filename := .wheel 3 3
    url := urlOneWhl
    hashes := some ⟨some 11⟩
    requiresPython := none
    distInfoMetadata := ⟨true, ⟨some 999⟩⟩
    yanked := ⟨false, none⟩ }

/-- Parsed metadata value used in concrete runs. -/
def metaA : WheelCoreMetadata := ⟨3, 3, none⟩

/-- Sidecar collaborators for concrete runs: the sidecar GET returns
the bytes [1, 2, 3] and they parse to metaA. -/
def pepEnvA : Pep658Env :=
  { fetchSidecar := fun _ => .ok [1, 2, 3]
    parseMeta := fun _ => some metaA }

/-- An https wheel URL used in direct-URL ingestion runs. -/
def urlHttpsWhl : UrlM :=
  { scheme := "https"
    path := "/x.whl".toList
    fragment := none
    asStr := "u3" }

/-- Http ingestion collaborators: the download yields bytes [1, 2, 3]
and the wheel reader extracts the metadata blob [7]. -/
def httpEnvA : HttpArtEnv :=
  { fetch := .ok [1, 2, 3]
    wheelFromBytes := .ok (.wheel 0 0, [7], ⟨0, 0, none⟩)
    sdistFromHttp := .err () }

/-- A file wheel URL used in direct-URL ingestion runs. -/
def urlFileWhl : UrlM :=
  { scheme := "file"
    path := "/y.whl".toList
    fragment := none
    asStr := "uf" }

/-- File ingestion collaborators: a regular wheel file whose reader
extracts the metadata blob [4]. -/
def fileEnvA : FileArtEnv :=
  { toFilePathOk := true
    isFile := true
    wheelFromPath := .ok (.wheel 0 1, [4], ⟨0, 0, none⟩)
    sdistFromPath := .err ()
    streeFromPath := .err () }

/-- A git URL used in direct-URL ingestion runs. -/
def urlGit : UrlM :=
  { scheme := "git+https"
    path := "/r".toList
    fragment := none
    asStr := "ug" }

/-- Git ingestion collaborators: parse and clone succeed, no requested
subdirectory, and the source tree reader extracts the metadata blob
[6]. -/
def gitEnvA : GitArtEnv :=
  { parsedOk := true
    cloneOk := true
    subdir := none
    streeFromPath := .ok (([6], ⟨0, 0, none⟩), .stree 0 2) }

/-- Direct-URL collaborators bundling the three paths above. -/
def directEnvA : DirectUrlEnv :=
  { file := fileEnvA
    http := httpEnvA
    git := gitEnvA }

/-- An http (insecure-scheme) URL. -/
def urlInsecure : UrlM :=
  { scheme := "http"
    path := "/x.whl".toList
    fragment := none
    asStr := "http://h/x.whl" }

/-- A plain wheel artifact named (1, 1) with no hashes and no declared
sidecar. -/
def wheelAiA : ArtifactInfo :=
  { filename := .wheel 1 1
    url := urlOneWhl
    hashes := none
    requiresPython := none
    distInfoMetadata := ⟨false, ⟨none⟩⟩
    yanked := ⟨false, none⟩ }

/-- A plain wheel artifact named (1, 2). -/
def wheelAiB : ArtifactInfo :=
  { filename := .wheel 1 2
    url := urlOneWhl
    hashes := none
    requiresPython := none
    distInfoMetadata := ⟨false, ⟨none⟩⟩
    yanked := ⟨false, none⟩ }

/-- A plain wheel artifact named (1, 3). -/
def wheelAiC : ArtifactInfo :=
  { filename := .wheel 1 3
    url := urlOneWhl
    hashes := none
    requiresPython := none
    distInfoMetadata := ⟨false, ⟨none⟩⟩
    yanked := ⟨false, none⟩ }

/-- Parsed metadata of the good cached wheel in the ladder run. -/
def metaB : WheelCoreMetadata := ⟨1, 1, none⟩

/-- Ladder collaborators for the concrete ladder run: the cached copy
of wheel (1, 1) has unreadable metadata, the cached copy of wheel
(1, 2) has readable metadata with blob [9], and everything else is
absent or failing. -/
def ladderEnvA : LadderEnv :=
  { pep := { fetchSidecar := fun _ => .err (), parseMeta := fun _ => none }
    wheelOnlyCached := fun ai =>
      match ai.filename with
      | .wheel _ 1 => .ok ⟨.err ()⟩
      | .wheel _ 2 => .ok ⟨.ok ([9], metaB)⟩
      | _ => .notCached
    sdistOnlyCached := fun _ => .notCached
    lazyRead := fun _ => none
    wheelDefault := fun _ => .err ()
    sdistDefault := fun _ => .err ()
    buildMeta := fun _ => .err 0
    parseMeta := fun _ => none }

/-- Parsed metadata of the wheel built in the concrete builder run. -/
def metaC : WheelCoreMetadata := ⟨2, 2, none⟩

/-- The wheel produced by the concrete builder run, with metadata blob
[3]. -/
def builtWheelA : BuiltWheel := ⟨.ok ([3], metaC)⟩

/-- Builder collaborators for the concrete code-50 run: the
WheelMetadata hook exits with code 50 and stderr 7, the Wheel hook
succeeds, and the produced wheel is builtWheelA. -/
def builderEnvA : BuilderEnv :=
  { wheelKey := .ok 1
    runCommand := fun cmd =>
      if cmd = "Wheel" then .ok ⟨true, some 0, 0⟩ else .ok ⟨false, some 50, 7⟩
    readMetadataResult := .err ()
    readWheelResult := .ok builtWheelA }

/-! Theorems. -/

/-- Exhausted fuel or an exhausted input both stop the replacement. -/
theorem replaceAllFuel_nil (pat rep : List Char) (n : Nat) :
    replaceAllFuel pat rep n [] = [] := by
  cases n <;> rfl

/-- When the non-empty pattern occurs in the input only as its final
suffix (no occurrence starts at any earlier position), the Rust-style
replacement rewrites exactly that suffix. -/
theorem replaceAllFuel_append_pattern (pat rep : List Char) (hne : pat ≠ []) :
    ∀ (q : List Char) (n : Nat), (q ++ pat).length ≤ n →
      (∀ i, i < q.length → pat.isPrefixOf ((q ++ pat).drop i) = false) →
      replaceAllFuel pat rep n (q ++ pat) = q ++ rep := by
  intro q
  induction q with
  | nil =>
    intro n hn _
    cases pat with
    | nil => exact absurd rfl hne
    | cons c t =>
      cases n with
      | zero => simp at hn
      | succ m =>
        simp only [List.nil_append] at hn ⊢
        rw [replaceAllFuel, if_pos]
        · rw [List.drop_length, replaceAllFuel_nil, List.append_nil]
        · exact ⟨hne, List.isPrefixOf_iff_prefix.2 (List.prefix_refl _)⟩
  | cons a q2 ih =>
    intro n hn hfirst
    have hpos : 0 < n := by
      simp only [List.length_append, List.cons_append, List.length_cons] at hn
      omega
    obtain ⟨m, rfl⟩ : ∃ m, n = m + 1 := ⟨n - 1, by omega⟩
    have h0 := hfirst 0 (by simp)
    rw [List.drop_zero] at h0
    rw [List.cons_append, replaceAllFuel, if_neg]
    · rw [List.cons_append]
      congr 1
      apply ih m
      · simp only [List.cons_append, List.length_cons] at hn
        omega
      · intro i hi
        have h := hfirst (i + 1) (by simp only [List.length_cons]; omega)
        rwa [List.cons_append, List.drop_succ_cons] at h
    · intro hcond
      rw [List.cons_append] at h0
      rw [h0] at hcond
      exact absurd hcond.2 (by simp)

/-- Suffix-only replacement, at the fuel chosen by replaceAll. -/
theorem replaceAll_single_suffix (pat rep q : List Char) (hne : pat ≠ [])
    (hfirst : ∀ i, i < q.length → pat.isPrefixOf ((q ++ pat).drop i) = false) :
    replaceAll pat rep (q ++ pat) = q ++ rep :=
  replaceAllFuel_append_pattern pat rep hne q (q ++ pat).length le_rfl hfirst

/-- Claim C1 counterexample: for the wheel artifact aiTwoWhl, whose URL
path is /a.whl/b.whl, the sidecar request path produced by
get_pep658_metadata rewrites the earlier .whl occurrence as well, so it
differs from the path obtained by replacing only the .whl suffix
(which would append .metadata). -/
theorem C1_counterexample :
    pep658RequestPath aiTwoWhl = "/a.whl.metadata/b.whl.metadata".toList ∧
    pep658RequestPath aiTwoWhl ≠ aiTwoWhl.url.path ++ ".metadata".toList := by
  constructor <;> decide

/-- Claim C1 (amended): the sidecar is fetched at the URL path obtained
by replacing every non-overlapping occurrence of .whl in the wheel URL
path with .whl.metadata; when no occurrence starts before the final
.whl suffix, this coincides with the spec reading, appending .metadata
to the wheel URL path. -/
theorem C1_amended (ai : ArtifactInfo) (q : List Char)
    (hpath : ai.url.path = q ++ ".whl".toList)
    (hfirst : ∀ i, i < q.length →
      ".whl".toList.isPrefixOf ((q ++ ".whl".toList).drop i) = false) :
    pep658RequestPath ai = ai.url.path ++ ".metadata".toList := by
  have h1 : replaceAll ".whl".toList ".whl.metadata".toList (q ++ ".whl".toList)
      = q ++ ".whl.metadata".toList :=
    replaceAll_single_suffix _ _ q (by decide) hfirst
  unfold pep658RequestPath
  rw [hpath, h1]
  have h2 : (".whl.metadata".toList : List Char)
      = ".whl".toList ++ ".metadata".toList := by decide
  rw [h2, ← List.append_assoc]

/-- Claim C1 witness: the amended statement evaluated at the artifact
aiSidecar, whose URL path contains .whl only as the suffix. -/
theorem C1_witness :
    pep658RequestPath aiSidecar = aiSidecar.url.path ++ ".metadata".toList :=
  C1_amended aiSidecar "/pkg/p-1.0-py3-none-any".toList (by decide) (by decide)

/-- Claim C2 counterexample: the artifact aiSidecar declares the
sidecar sha256 999, the fetched sidecar bytes [1, 2, 3] digest to a
different value, yet get_pep658_metadata succeeds — the bytes are
cached under the artifact hashes and the metadata returned, with no
HashMismatch error. -/
theorem C2_counterexample :
    aiSidecar.distInfoMetadata.hashes = ⟨some 999⟩ ∧
    sha256model [1, 2, 3] ≠ 999 ∧
    get_pep658_metadata pepEnvA aiSidecar [] =
      .ok ([(⟨some 11⟩, [1, 2, 3])], metaA) := by
  refine ⟨by decide, by decide, by decide⟩

/-- Claim C2 (amended): get_pep658_metadata performs no verification of
the fetched sidecar bytes: the declared sidecar hashes are never
consulted (replacing them changes nothing), and any bytes that download
and parse successfully are cached under the artifact hashes and
returned. -/
theorem C2_amended :
    (∀ (env : Pep658Env) (ai : ArtifactInfo) (mc : MetadataCache)
        (h h2 : ArtifactHashes),
      get_pep658_metadata env
          { ai with distInfoMetadata := ⟨ai.distInfoMetadata.available, h⟩ } mc =
        get_pep658_metadata env
          { ai with distInfoMetadata := ⟨ai.distInfoMetadata.available, h2⟩ } mc) ∧
    (∀ (env : Pep658Env) (ai : ArtifactInfo) (mc : MetadataCache)
        (bytes : List Nat) (m : WheelCoreMetadata),
      ai.filename.isWheel = true →
      env.fetchSidecar (pep658RequestPath ai) = .ok bytes →
      env.parseMeta bytes = some m →
      get_pep658_metadata env ai mc = .ok (putMetadataInCache mc ai bytes, m)) := by
  constructor
  · intro env ai mc h h2
    rfl
  · intro env ai mc bytes m hw hf hp
    simp [get_pep658_metadata, hw, hf, hp]

/-- Claim C2 witness: the amended statement evaluated at the concrete
sidecar run of aiSidecar, discharging both parts at concrete inputs. -/
theorem C2_witness :
    (get_pep658_metadata pepEnvA
        { aiSidecar with
            distInfoMetadata := ⟨aiSidecar.distInfoMetadata.available, ⟨some 1⟩⟩ } [] =
      get_pep658_metadata pepEnvA
        { aiSidecar with
            distInfoMetadata := ⟨aiSidecar.distInfoMetadata.available, ⟨some 2⟩⟩ } []) ∧
    get_pep658_metadata pepEnvA aiSidecar [] =
      .ok (putMetadataInCache [] aiSidecar [1, 2, 3], metaA) :=
  ⟨C2_amended.1 pepEnvA aiSidecar [] ⟨some 1⟩ ⟨some 2⟩,
   C2_amended.2 pepEnvA aiSidecar [] [1, 2, 3] metaA (by decide) (by decide) (by decide)⟩

/-- Claim C3 counterexample: in the https direct-URL ingestion of a
wheel, the downloaded artifact bytes are [1, 2, 3] and the extracted
core-metadata blob is [7]; the stored sha256 is the digest of the
artifact bytes, which differs from the digest of the metadata blob, so
the claim that the stored sha256 is the digest of the metadata blob for
https URLs is false. -/
theorem C3_counterexample :
    get_direct_http_url_artifact httpEnvA 5 urlHttpsWhl [] [] =
      .ok ([(5, [(PypiVersion.url "u3",
              [synthesizedArtifactInfo (.wheel 0 0) urlHttpsWhl
                ⟨some (sha256model [1, 2, 3])⟩ ⟨0, 0, none⟩])])],
           [(⟨some (sha256model [1, 2, 3])⟩, [7])],
           [(PypiVersion.url "u3",
              [synthesizedArtifactInfo (.wheel 0 0) urlHttpsWhl
                ⟨some (sha256model [1, 2, 3])⟩ ⟨0, 0, none⟩])]) ∧
    sha256model [1, 2, 3] ≠ sha256model [7] := by
  refine ⟨by decide, by decide⟩

/-- Claim C3 (amended): for file URLs the stored sha256 is the digest
of the extracted core-metadata blob, for https URLs it is the digest of
the downloaded artifact bytes, and for git URLs it is the digest of the
URL string; in every case the metadata blob is stored in the metadata
cache under that hash before the function returns. -/
theorem C3_amended :
    (∀ (env : FileArtEnv) (p : Nat) (url : UrlM) (db : ArtifactsMap)
        (mc : MetadataCache) (name : ArtifactName) (blob : List Nat)
        (m : WheelCoreMetadata),
      env.toFilePathOk = true → env.isFile = true →
      ".whl".toList.isSuffixOf url.path = true →
      env.wheelFromPath = .ok (name, blob, m) →
      db.lookup p = none → mc.lookup ⟨some (sha256model blob)⟩ = none →
      get_file_artifact env p url db mc =
        .ok ((p, [(PypiVersion.url url.asStr,
                [synthesizedArtifactInfo name url ⟨some (sha256model blob)⟩ m])]) :: db,
             (⟨some (sha256model blob)⟩, blob) :: mc,
             [(PypiVersion.url url.asStr,
                [synthesizedArtifactInfo name url ⟨some (sha256model blob)⟩ m])])) ∧
    (∀ (env : HttpArtEnv) (p : Nat) (url : UrlM) (db : ArtifactsMap)
        (mc : MetadataCache) (name : ArtifactName) (bytes blob : List Nat)
        (m : WheelCoreMetadata),
      env.fetch = .ok bytes → url.fragment = none →
      ".whl".toList.isSuffixOf url.path = true →
      env.wheelFromBytes = .ok (name, blob, m) →
      db.lookup p = none → mc.lookup ⟨some (sha256model bytes)⟩ = none →
      get_direct_http_url_artifact env p url db mc =
        .ok ((p, [(PypiVersion.url url.asStr,
                [synthesizedArtifactInfo name url ⟨some (sha256model bytes)⟩ m])]) :: db,
             (⟨some (sha256model bytes)⟩, blob) :: mc,
             [(PypiVersion.url url.asStr,
                [synthesizedArtifactInfo name url ⟨some (sha256model bytes)⟩ m])])) ∧
    (∀ (env : GitArtEnv) (p : Nat) (url : UrlM) (db : ArtifactsMap)
        (mc : MetadataCache) (name : ArtifactName) (blob : List Nat)
        (m : WheelCoreMetadata),
      env.parsedOk = true → env.cloneOk = true → env.subdir = none →
      env.streeFromPath = .ok ((blob, m), name) →
      db.lookup p = none →
      mc.lookup ⟨some (sha256model (url.asStr.toList.map Char.toNat))⟩ = none →
      get_git_artifact env p url db mc =
        .ok ((p, [(PypiVersion.url url.asStr,
                [synthesizedArtifactInfo name url
                  ⟨some (sha256model (url.asStr.toList.map Char.toNat))⟩ m])]) :: db,
             (⟨some (sha256model (url.asStr.toList.map Char.toNat))⟩, blob) :: mc,
             [(PypiVersion.url url.asStr,
                [synthesizedArtifactInfo name url
                  ⟨some (sha256model (url.asStr.toList.map Char.toNat))⟩ m])])) := by
  refine ⟨?_, ?_, ?_⟩
  · intro env p url db mc name blob m h1 h2 h3 h4 h5 h6
    simp only [List.isSuffixOf_iff_suffix, String.toList] at h3
    simp [get_file_artifact, h1, h2, h3, h4, frozenInsert, h5,
      putMetadataInCache, synthesizedArtifactInfo, mcGetOrSet, h6]
  · intro env p url db mc name bytes blob m h1 h2 h3 h4 h5 h6
    simp only [List.isSuffixOf_iff_suffix, String.toList] at h3
    simp [get_direct_http_url_artifact, directHttpUrlRest, h1, h2, h3, h4,
      frozenInsert, h5, putMetadataInCache, synthesizedArtifactInfo, mcGetOrSet, h6]
  · intro env p url db mc name blob m h1 h2 h3 h4 h5 h6
    simp only [String.toList] at h6
    simp [get_git_artifact, h1, h2, h3, h4, frozenInsert, h5,
      putMetadataInCache, synthesizedArtifactInfo, mcGetOrSet, h6]

/-- Claim C3 witness: the amended statement evaluated on the three
concrete ingestion runs (file, https, git). -/
theorem C3_witness :
    get_file_artifact fileEnvA 1 urlFileWhl [] [] =
      .ok ([(1, [(PypiVersion.url "uf",
              [synthesizedArtifactInfo (.wheel 0 1) urlFileWhl
                ⟨some (sha256model [4])⟩ ⟨0, 0, none⟩])])],
           [(⟨some (sha256model [4])⟩, [4])],
           [(PypiVersion.url "uf",
              [synthesizedArtifactInfo (.wheel 0 1) urlFileWhl
                ⟨some (sha256model [4])⟩ ⟨0, 0, none⟩])]) ∧
    get_direct_http_url_artifact httpEnvA 2 urlHttpsWhl [] [] =
      .ok ([(2, [(PypiVersion.url "u3",
              [synthesizedArtifactInfo (.wheel 0 0) urlHttpsWhl
                ⟨some (sha256model [1, 2, 3])⟩ ⟨0, 0, none⟩])])],
           [(⟨some (sha256model [1, 2, 3])⟩, [7])],
           [(PypiVersion.url "u3",
              [synthesizedArtifactInfo (.wheel 0 0) urlHttpsWhl
                ⟨some (sha256model [1, 2, 3])⟩ ⟨0, 0, none⟩])]) ∧
    get_git_artifact gitEnvA 3 urlGit [] [] =
      .ok ([(3, [(PypiVersion.url "ug",
              [synthesizedArtifactInfo (.stree 0 2) urlGit
                ⟨some (sha256model ("ug".toList.map Char.toNat))⟩ ⟨0, 0, none⟩])])],
           [(⟨some (sha256model ("ug".toList.map Char.toNat))⟩, [6])],
           [(PypiVersion.url "ug",
              [synthesizedArtifactInfo (.stree 0 2) urlGit
                ⟨some (sha256model ("ug".toList.map Char.toNat))⟩ ⟨0, 0, none⟩])]) :=
  ⟨C3_amended.1 fileEnvA 1 urlFileWhl [] [] (.wheel 0 1) [4] ⟨0, 0, none⟩
      (by decide) (by decide) (by decide) (by decide) (by decide) (by decide),
   C3_amended.2.1 httpEnvA 2 urlHttpsWhl [] [] (.wheel 0 0) [1, 2, 3] [7] ⟨0, 0, none⟩
      (by decide) (by decide) (by decide) (by decide) (by decide) (by decide),
   C3_amended.2.2 gitEnvA 3 urlGit [] [] (.stree 0 2) [6] ⟨0, 0, none⟩
      (by decide) (by decide) (by decide) (by decide) (by decide) (by decide)⟩

/-- Claim C4 counterexample: resolve options carrying PreferSDists are
stored unchanged by WheelBuilder::new; the builder does not coerce
every sdist_resolution to PreferWheels. -/
theorem C4_counterexample :
    (wheelBuilderResolveOptions ⟨SDistResolution.preferSDists⟩).sdist_resolution =
      SDistResolution.preferSDists ∧
    (wheelBuilderResolveOptions ⟨SDistResolution.preferSDists⟩).sdist_resolution ≠
      SDistResolution.preferWheels := by
  refine ⟨by decide, by decide⟩

/-- Claim C4 (amended): WheelBuilder::new rewrites only an OnlySDists
preference to PreferWheels and keeps every other preference unchanged;
in particular the stored options always allow wheels, so a source whose
build backend requires itself never forces its own source form. -/
theorem C4_amended (ro : ResolveOptions) :
    (wheelBuilderResolveOptions ro).sdist_resolution.allow_wheels = true ∧
    (ro.sdist_resolution = SDistResolution.onlySDists →
      (wheelBuilderResolveOptions ro).sdist_resolution = SDistResolution.preferWheels) ∧
    (ro.sdist_resolution ≠ SDistResolution.onlySDists →
      wheelBuilderResolveOptions ro = ro) := by
  obtain ⟨r⟩ := ro
  cases r <;> simp [wheelBuilderResolveOptions, SDistResolution.allow_wheels]

/-- Claim C4 witness: the amended statement evaluated at OnlySDists
resolve options. -/
theorem C4_witness :
    (wheelBuilderResolveOptions ⟨SDistResolution.onlySDists⟩).sdist_resolution =
      SDistResolution.preferWheels :=
  (C4_amended ⟨SDistResolution.onlySDists⟩).2.1 rfl

/-- Claim C5 counterexample: a ladder run over two wheels in which the
first wheel is in the HTTP cache but its metadata cannot be read — an
error that is neither NotCached nor a BuildError — yet the ladder
recovers, moves to the second wheel and succeeds instead of
terminating with the error. -/
theorem C5_counterexample :
    ladderEnvA.wheelOnlyCached wheelAiA = .ok ⟨.err ()⟩ ∧
    get_metadata ladderEnvA [] [wheelAiA, wheelAiB] true =
      .ok ([], some (wheelAiB, metaB)) := by
  refine ⟨by decide, by decide⟩

/-- Claim C5 (amended): within the ladder, NotCached is recovered as
continue in rung 2; errors reading the metadata of a cached wheel
(rung 2) or of a fully downloaded wheel (rung 3) are likewise recovered
by skipping to the next artifact; a build failure in rung 4 is recorded
and the next source is tried, all failures batching into one error when
no source succeeds; every other error — non-NotCached transport errors,
PKG-INFO parse errors, PEP 658 sidecar failures — terminates the
ladder. -/
theorem C5_amended :
    (∀ (env : LadderEnv) (mc : MetadataCache) (ai : ArtifactInfo)
        (rest : List ArtifactInfo),
      ai.filename.isWheel = true → env.wheelOnlyCached ai = .notCached →
      metadata_for_cached_artifacts env mc (ai :: rest) =
        metadata_for_cached_artifacts env mc rest) ∧
    (∀ (env : LadderEnv) (mc : MetadataCache) (ai : ArtifactInfo)
        (rest : List ArtifactInfo) (w : WheelObj),
      ai.filename.isWheel = true → env.wheelOnlyCached ai = .ok w →
      w.metaResult = .err () →
      metadata_for_cached_artifacts env mc (ai :: rest) =
        metadata_for_cached_artifacts env mc rest) ∧
    (∀ (env : LadderEnv) (mc : MetadataCache) (ai : ArtifactInfo)
        (rest : List ArtifactInfo),
      ai.filename.isWheel = true → env.wheelOnlyCached ai = .otherErr →
      metadata_for_cached_artifacts env mc (ai :: rest) = .err .transport) ∧
    (∀ (env : LadderEnv) (mc : MetadataCache) (ai : ArtifactInfo)
        (rest : List ArtifactInfo) (s : SDistObj),
      ai.filename.isWheel = false → env.sdistOnlyCached ai = .ok s →
      s.pep643 = .err () →
      metadata_for_cached_artifacts env mc (ai :: rest) = .err .pep643Parse) ∧
    (∀ (env : LadderEnv) (mc : MetadataCache) (ai : ArtifactInfo)
        (rest : List ArtifactInfo),
      ai.filename.isWheel = true → ai.distInfoMetadata.available = true →
      get_pep658_metadata env.pep ai mc = .err () →
      get_metadata_wheels env mc (ai :: rest) = .err .pep658Failed) ∧
    (∀ (env : LadderEnv) (mc : MetadataCache) (ai : ArtifactInfo)
        (rest : List ArtifactInfo),
      ai.filename.isWheel = true → ai.distInfoMetadata.available = false →
      env.lazyRead ai = none → env.wheelDefault ai = .err () →
      get_metadata_wheels env mc (ai :: rest) = .err .transport) ∧
    (∀ (env : LadderEnv) (mc : MetadataCache) (ai : ArtifactInfo)
        (rest : List ArtifactInfo) (w : WheelObj),
      ai.filename.isWheel = true → ai.distInfoMetadata.available = false →
      env.lazyRead ai = none → env.wheelDefault ai = .ok w →
      w.metaResult = .err () →
      get_metadata_wheels env mc (ai :: rest) = get_metadata_wheels env mc rest) ∧
    (∀ (env : LadderEnv) (mc : MetadataCache) (errs : List Nat)
        (ai : ArtifactInfo) (rest : List ArtifactInfo) (e : Nat),
      ai.filename.isSDist = true → env.sdistDefault ai = .ok () →
      env.buildMeta ai = .err e →
      get_metadata_sdists env mc errs (ai :: rest) =
        get_metadata_sdists env mc (errs ++ [e]) rest) ∧
    (∀ (env : LadderEnv) (mc : MetadataCache) (errs : List Nat),
      get_metadata_sdists env mc errs [] =
        if errs.isEmpty then .ok (mc, none) else .err (.buildFailures errs)) := by
  refine ⟨?_, ?_, ?_, ?_, ?_, ?_, ?_, ?_, ?_⟩
  · intro env mc ai rest h1 h2
    simp [metadata_for_cached_artifacts, h1, h2]
  · intro env mc ai rest w h1 h2 h3
    simp [metadata_for_cached_artifacts, h1, h2, h3]
  · intro env mc ai rest h1 h2
    simp [metadata_for_cached_artifacts, h1, h2]
  · intro env mc ai rest s h1 h2 h3
    simp [metadata_for_cached_artifacts, h1, h2, h3]
  · intro env mc ai rest h1 h2 h3
    simp [get_metadata_wheels, h1, h2, h3]
  · intro env mc ai rest h1 h2 h3 h4
    simp [get_metadata_wheels, h1, h2, h3, h4]
  · intro env mc ai rest w h1 h2 h3 h4 h5
    simp [get_metadata_wheels, h1, h2, h3, h4, h5]
  · intro env mc errs ai rest e h1 h2 h3
    simp [get_metadata_sdists, h1, h2, h3]
  · intro env mc errs
    rfl

/-- Claim C5 witness: the amended statement applied at concrete inputs,
one rung 2 NotCached skip and one rung 4 record-and-continue step. -/
theorem C5_witness :
    metadata_for_cached_artifacts ladderEnvA [] [wheelAiC] =
      metadata_for_cached_artifacts ladderEnvA [] [] ∧
    get_metadata_sdists ladderEnvA [] [] [] =
      if ([] : List Nat).isEmpty then .ok ([], none) else .err (.buildFailures []) :=
  ⟨C5_amended.1 ladderEnvA [] wheelAiC [] (by decide) (by decide),
   C5_amended.2.2.2.2.2.2.2.2 ladderEnvA [] []⟩

/-- Claim C6: a package name absent from the memoization map is fetched
once; afterwards the map holds the merged result, and every later call
— with any responses whatsoever, so in particular without re-fetching —
returns the same stored value and leaves the map unchanged. -/
theorem C6_memoized (anyPre : Nat → Bool) (db : ArtifactsMap) (p : Nat)
    (rs : List (List ArtifactInfo)) (habsent : db.lookup p = none) :
    ((availableArtifacts anyPre db p rs).1.lookup p =
      some (availableArtifacts anyPre db p rs).2) ∧
    (∀ rs2, availableArtifacts anyPre (availableArtifacts anyPre db p rs).1 p rs2 =
      ((availableArtifacts anyPre db p rs).1, (availableArtifacts anyPre db p rs).2)) := by
  have hstep : availableArtifacts anyPre db p rs =
      ((p, buildVersionArtifacts anyPre rs) :: db, buildVersionArtifacts anyPre rs) := by
    simp [availableArtifacts, habsent, frozenInsert]
  refine ⟨?_, ?_⟩
  · rw [hstep]
    simp [List.lookup]
  · intro rs2
    rw [hstep]
    simp [availableArtifacts, List.lookup]

/-- Claim C6 witness: the memoization statement evaluated at an empty
map and package 0; the second call sees different responses and still
returns the stored value. -/
theorem C6_witness :
    availableArtifacts (fun _ => false)
        (availableArtifacts (fun _ => false) [] 0 []).1 0 [[wheelAiA]] =
      ((availableArtifacts (fun _ => false) [] 0 []).1,
       (availableArtifacts (fun _ => false) [] 0 []).2) :=
  (C6_memoized (fun _ => false) [] 0 [] (by decide)).2 [[wheelAiA]]

/-- Invariants preserved through List.foldl. -/
theorem foldl_preserve {α β : Type} (P : β → Prop) (f : β → α → β)
    (hf : ∀ b a, P b → P (f b a)) :
    ∀ (l : List α) (b : β), P b → P (l.foldl f b)
  | [], _, hb => hb
  | a :: l, b, hb => foldl_preserve P f hf l (f b a) (hf b a hb)

/-- The key list of entryPush: unchanged when the key is present,
extended at the end otherwise. -/
theorem keys_entryPush (m : VersionArtifacts) (k : PypiVersion) (a : ArtifactInfo) :
    (entryPush m k a).map Prod.fst =
      if k ∈ m.map Prod.fst then m.map Prod.fst else m.map Prod.fst ++ [k] := by
  induction m with
  | nil => simp [entryPush]
  | cons e rest ih =>
    obtain ⟨k2, l⟩ := e
    by_cases h : k2 = k
    · subst h
      simp [entryPush]
    · by_cases h2 : k ∈ rest.map Prod.fst
      · simp [entryPush, h, ih, h2, Ne.symm h]
      · simp [entryPush, h, ih, h2, Ne.symm h]

/-- entryPush preserves distinctness of the keys. -/
theorem nodupKeys_entryPush (m : VersionArtifacts) (k : PypiVersion)
    (a : ArtifactInfo) (h : (m.map Prod.fst).Nodup) :
    ((entryPush m k a).map Prod.fst).Nodup := by
  rw [keys_entryPush]
  by_cases hm : k ∈ m.map Prod.fst
  · simpa [hm] using h
  · simp only [hm, if_false]
    simp [List.nodup_append, h, hm]

/-- The merge loop of available_artifacts produces distinct version
keys. -/
theorem nodupKeys_collect (anyPre : Nat → Bool) (rs : List (List ArtifactInfo)) :
    ((collectArtifacts anyPre rs).map Prod.fst).Nodup := by
  unfold collectArtifacts
  refine foldl_preserve (fun m : VersionArtifacts => (m.map Prod.fst).Nodup) _
    ?_ rs [] (by simp)
  intro b files hb
  refine foldl_preserve (fun m : VersionArtifacts => (m.map Prod.fst).Nodup) _
    ?_ files b hb
  intro b2 a2 hb2
  exact nodupKeys_entryPush _ _ _ hb2

/-- Claim C7: in the result of available_artifacts, every artifact
list is sorted ascending by filename, and the version keys are sorted
descending and are distinct; the construction is a pure function of the
responses, so a fixed response list determines the key order and the
per-version artifact order. -/
theorem C7_ordering (anyPre : Nat → Bool) (rs : List (List ArtifactInfo)) :
    (∀ k l, (k, l) ∈ buildVersionArtifacts anyPre rs → l.Sorted aiFilenameLe) ∧
    ((buildVersionArtifacts anyPre rs).map Prod.fst).Sorted
      (fun k1 k2 => pvLe k2 k1) ∧
    ((buildVersionArtifacts anyPre rs).map Prod.fst).Nodup := by
  refine ⟨?_, ?_, ?_⟩
  · intro k l hmem
    unfold buildVersionArtifacts at hmem
    have hperm := List.perm_insertionSort entryDesc
      ((collectArtifacts anyPre rs).map
        (fun e => (e.1, List.insertionSort aiFilenameLe e.2)))
    have hmem2 := hperm.mem_iff.1 hmem
    obtain ⟨e, _, heq⟩ := List.mem_map.1 hmem2
    obtain ⟨h1, h2⟩ := Prod.mk.injEq .. ▸ heq
    rw [← h2]
    exact List.sorted_insertionSort aiFilenameLe e.2
  · have hs := List.sorted_insertionSort entryDesc
      ((collectArtifacts anyPre rs).map
        (fun e => (e.1, List.insertionSort aiFilenameLe e.2)))
    unfold buildVersionArtifacts
    exact List.pairwise_map.2 hs
  · have h1 := nodupKeys_collect anyPre rs
    have h2 : ((collectArtifacts anyPre rs).map
        (fun e => (e.1, List.insertionSort aiFilenameLe e.2))).map Prod.fst =
        (collectArtifacts anyPre rs).map Prod.fst := by
      rw [List.map_map]
      rfl
    have hperm := List.perm_insertionSort entryDesc
      ((collectArtifacts anyPre rs).map
        (fun e => (e.1, List.insertionSort aiFilenameLe e.2)))
    unfold buildVersionArtifacts
    exact ((hperm.map Prod.fst).symm).nodup (h2 ▸ h1)

/-- Claim C7 witness: the ordering statement evaluated on one concrete
response carrying two wheels of the same version out of order; the
resulting artifact list is sorted. -/
theorem C7_witness :
    ([wheelAiA, wheelAiB] : List ArtifactInfo).Sorted aiFilenameLe :=
  (C7_ordering (fun _ => false) [[wheelAiB, wheelAiA]]).1
    (PypiVersion.version 1 false) [wheelAiA, wheelAiB] (by decide)

/-- Claim C8 counterexample: when the package is already present in the
memoization map, get_artifact_by_direct_url returns the cached value
without consulting the URL, so a call with the insecure http scheme
succeeds instead of failing. -/
theorem C8_counterexample :
    get_artifact_by_direct_url directEnvA 7 urlInsecure [(7, [])] [] =
      .ok ([(7, [])], [], []) ∧
    urlInsecure.scheme = "http" := by
  refine ⟨by decide, by decide⟩

/-- Claim C8 (amended): when the package name is not already memoized,
a URL whose scheme is none of file, https, git+https, git+file — in
particular http — makes get_artifact_by_direct_url fail with the
insecure-or-unsupported-scheme error. -/
theorem C8_amended (env : DirectUrlEnv) (p : Nat) (url : UrlM)
    (db : ArtifactsMap) (mc : MetadataCache) (habsent : db.lookup p = none)
    (h1 : url.scheme ≠ "file") (h2 : url.scheme ≠ "https")
    (h3 : url.scheme ≠ "git+https") (h4 : url.scheme ≠ "git+file") :
    get_artifact_by_direct_url env p url db mc = .err .unsupportedScheme := by
  simp [get_artifact_by_direct_url, habsent, h1, h2, h3, h4]

/-- Claim C8 witness: the amended statement evaluated at an http URL
against an empty memoization map. -/
theorem C8_witness :
    get_artifact_by_direct_url directEnvA 7 urlInsecure [] [] =
      .err .unsupportedScheme :=
  C8_amended directEnvA 7 urlInsecure [] [] (by decide) (by decide) (by decide)
    (by decide) (by decide)

/-- Claim C9: when the WheelMetadata hook exits unsuccessfully with
code 50, get_sdist_metadata falls back to a full build_wheel of the
same source and returns exactly the metadata of the built wheel
(propagating a build failure, and failing when the built wheel has
unreadable metadata); on any other failing exit it returns a build
error carrying the captured stderr. -/
theorem C9_code50 (env : BuilderEnv) (wc : WheelCacheState) (key : Nat)
    (out : CmdOutput) (hkey : env.wheelKey = .ok key)
    (hmiss : wc.lookup key = none)
    (hrun : env.runCommand "WheelMetadata" = .ok out)
    (hfail : out.success = false) :
    (out.code = some 50 →
      (∀ wc2 w, build_wheel env wc = .ok (wc2, w) →
        (∀ r, w.metaResult = .ok r → get_sdist_metadata env wc = .ok (wc2, r)) ∧
        (w.metaResult = .err () → get_sdist_metadata env wc = .err .otherFailure)) ∧
      (∀ e, build_wheel env wc = .err e → get_sdist_metadata env wc = .err e)) ∧
    (out.code ≠ some 50 →
      get_sdist_metadata env wc = .err (.stderrOf out.stderr)) := by
  constructor
  · intro hcode
    constructor
    · intro wc2 w hbw
      constructor
      · intro r hr
        simp [get_sdist_metadata, hkey, hmiss, hrun, hfail, hcode, hbw, hr]
      · intro hr
        simp [get_sdist_metadata, hkey, hmiss, hrun, hfail, hcode, hbw, hr]
    · intro e hbw
      simp [get_sdist_metadata, hkey, hmiss, hrun, hfail, hcode, hbw]
  · intro hcode
    simp [get_sdist_metadata, hkey, hmiss, hrun, hfail, hcode]

/-- Claim C9 witness: the code-50 statement evaluated on the concrete
builder run, where the built wheel carries metadata blob [3] parsed to
metaC; the fallback returns exactly that metadata. -/
theorem C9_witness :
    get_sdist_metadata builderEnvA [] = .ok ([(1, builtWheelA)], ([3], metaC)) :=
  (((C9_code50 builderEnvA [] 1 ⟨false, some 50, 7⟩ (by decide) (by decide)
      (by decide) (by decide)).1 (by decide)).1 [(1, builtWheelA)] builtWheelA
      (by decide)).1 ([3], metaC) (by decide)

/-- Claim C10: when an https direct URL carries a fragment-declared
sha256, get_direct_http_url_artifact compares it with the digest of the
downloaded bytes through assert_eq!: a disagreement aborts the run (no
typed error is returned), and under agreement the assertion is passed
and the function proceeds with the normal ingestion continuation. -/
theorem C10_assert (env : HttpArtEnv) (p : Nat) (url : UrlM)
    (db : ArtifactsMap) (mc : MetadataCache) (bytes : List Nat) (h : Nat)
    (hfetch : env.fetch = .ok bytes) (hfrag : url.fragment = some h) :
    (h ≠ sha256model bytes →
      get_direct_http_url_artifact env p url db mc = .panicked) ∧
    (h = sha256model bytes →
      get_direct_http_url_artifact env p url db mc =
        directHttpUrlRest env p url db mc bytes) := by
  constructor
  · intro hne
    simp [get_direct_http_url_artifact, hfetch, hfrag, hne]
  · intro heq
    simp [get_direct_http_url_artifact, hfetch, hfrag, heq]

/-- Claim C10 witness: the assertion statement evaluated on two
concrete runs of httpEnvA — a mismatching fragment aborts, a matching
fragment proceeds into the ingestion continuation. -/
theorem C10_witness :
    get_direct_http_url_artifact httpEnvA 0
        { urlHttpsWhl with fragment := some 0 } [] [] = .panicked ∧
    get_direct_http_url_artifact httpEnvA 0
        { urlHttpsWhl with fragment := some (sha256model [1, 2, 3]) } [] [] =
      directHttpUrlRest httpEnvA 0
        { urlHttpsWhl with fragment := some (sha256model [1, 2, 3]) } [] [] [1, 2, 3] :=
  ⟨(C10_assert httpEnvA 0 { urlHttpsWhl with fragment := some 0 } [] [] [1, 2, 3] 0
      (by decide) (by decide)).1 (by decide),
   (C10_assert httpEnvA 0 { urlHttpsWhl with fragment := some (sha256model [1, 2, 3]) }
      [] [] [1, 2, 3] (sha256model [1, 2, 3]) (by decide) (by decide)).2 rfl⟩
